import Mathlib

/-!
# Verification of the smart-quiz-hub quiz platform logic

Shallow embedding of the client-side logic of the CBT quiz application:
grading and submission (`src/pages/TakeQuiz.tsx`), quiz loading with
optional randomization (`src/pages/TakeQuiz.tsx`), quiz authoring
(`src/pages/CreateQuiz.tsx`), dashboard statistics
(`src/pages/AdminDashboard.tsx`) and the results view
(`src/pages/Results.tsx`).
-/

namespace SmartQuizHub

/-! ## String primitives

JavaScript `String.prototype.toLowerCase` and `String.prototype.trim`
modelled over Lean strings: `toLowerCase` lowercases every character,
`trim` removes leading and trailing whitespace. -/

/-- JS `s.toLowerCase()`: lowercase every character of the string. -/
def jsToLowerCase (s : String) : String :=
  ⟨s.data.map Char.toLower⟩

/-- JS `s.trim()`: drop leading and trailing whitespace characters. -/
def jsTrim (s : String) : String :=
  ⟨((s.data.dropWhile Char.isWhitespace).reverse.dropWhile Char.isWhitespace).reverse⟩

/-! ## Data model (TakeQuiz.tsx) -/

/-- A question as served to the quiz-taking view (interface `Question`
in `TakeQuiz.tsx`): after loading, `options` is always a materialized
list (the load step replaces a non-array JSON value by `[]`). -/
structure Question where
  id : String
  question_text : String
  question_type : String
  options : List String
  correct_answer : String
  points : Nat
deriving Repr, DecidableEq

/-- A question row as fetched from the `questions` table: the `options`
column is JSONB and may be null (`none`). -/
structure StoredQuestion where
  id : String
  question_text : String
  question_type : String
  options : Option (List String)
  correct_answer : String
  points : Nat
deriving Repr, DecidableEq

/-- A `student_answers` row as built by `handleSubmit` in `TakeQuiz.tsx`. -/
structure AnswerRow where
  attempt_id : String
  question_id : String
  student_answer : String
  is_correct : Bool
  points_earned : Nat
deriving Repr, DecidableEq

/-! ## Grading (`handleSubmit`, TakeQuiz.tsx lines 147-166) -/

/-- The `answers` component state is a `Record<string, string>` from
question id to the student's current answer; `answers[question.id] || ''`
yields the stored string, or `''` when the key is absent (an absent key
and an empty stored string are indistinguishable, both falsy). -/
def lookupAnswer (answers : List (String × String)) (qid : String) : String :=
  match answers.find? (fun p => p.1 == qid) with
  | some p => p.2
  | none => ""

/-- `studentAnswer.trim().toLowerCase() === question.correct_answer.trim().toLowerCase()`
(TakeQuiz.tsx lines 154-155). -/
def gradeIsCorrect (studentAnswer correctAnswer : String) : Bool :=
  jsToLowerCase (jsTrim studentAnswer) == jsToLowerCase (jsTrim correctAnswer)

/-- One iteration of the grading loop body: the answer row pushed onto
`answersData` for question `q` (TakeQuiz.tsx lines 153-165). -/
def mkAnswerRow (attemptId : String) (answers : List (String × String))
    (q : Question) : AnswerRow :=
  let studentAnswer := lookupAnswer answers q.id
  let isCorrect := gradeIsCorrect studentAnswer q.correct_answer
  { attempt_id := attemptId
    question_id := q.id
    student_answer := studentAnswer
    is_correct := isCorrect
    points_earned := if isCorrect then q.points else 0 }

/-- One iteration of the scoring loop: add the row's points to `score`,
the question's points to `totalPoints`, and push the row onto
`answersData` (TakeQuiz.tsx lines 151-166). -/
def submitStep (attemptId : String) (answers : List (String × String))
    (acc : Nat × Nat × List AnswerRow) (q : Question) : Nat × Nat × List AnswerRow :=
  let row := mkAnswerRow attemptId answers q
  (acc.1 + row.points_earned, acc.2.1 + q.points, acc.2.2 ++ [row])

/-- The scoring loop of `handleSubmit` (TakeQuiz.tsx lines 147-166):
folds over the served question sequence accumulating `score`,
`totalPoints` and the list `answersData` of rows to persist. -/
def handleSubmitCore (attemptId : String) (questions : List Question)
    (answers : List (String × String)) : Nat × Nat × List AnswerRow :=
  questions.foldl (submitStep attemptId answers) (0, 0, [])

/-! ## Quiz loading and randomization (`fetchQuizAndQuestions`, TakeQuiz.tsx lines 72-136)

The two `sort(() => Math.random() - 0.5)` calls draw fresh randomness on
every invocation; they are modelled by externally supplied reordering
functions: one for the question sequence, and one family indexed by the
question's position for the per-question option shuffles (each position
consumes its own independent draw). -/

/-- `{...q, options: Array.isArray(q.options) ? q.options : []}`
(TakeQuiz.tsx lines 92-95): materialize the JSONB `options` column,
replacing a null value by the empty list. -/
def normalizeStored (q : StoredQuestion) : Question :=
  { id := q.id
    question_text := q.question_text
    question_type := q.question_type
    options := q.options.getD []
    correct_answer := q.correct_answer
    points := q.points }

/-- The option-randomization pass (TakeQuiz.tsx lines 102-112): map over
the question list; a question of type `'mcq'` (whose materialized
`options` list is always a truthy array) gets its option list reordered
by the draw belonging to its position, every other question is returned
unchanged. -/
def randomizeOptionsPass (oShuffle : Nat → List String → List String) :
    Nat → List Question → List Question
  | _, [] => []
  | i, q :: rest =>
    (if q.question_type == "mcq" then { q with options := oShuffle i q.options } else q)
      :: randomizeOptionsPass oShuffle (i + 1) rest

/-- The question-processing pipeline of `fetchQuizAndQuestions`
(TakeQuiz.tsx lines 91-114): materialize options, shuffle the question
order when `randomize_questions` is set, then shuffle per-question
options when `randomize_options` is set. -/
def processQuestions (randomizeQuestions randomizeOptions : Bool)
    (qShuffle : List Question → List Question)
    (oShuffle : Nat → List String → List String)
    (stored : List StoredQuestion) : List Question :=
  let processed := stored.map normalizeStored
  let processed := if randomizeQuestions then qShuffle processed else processed
  if randomizeOptions then randomizeOptionsPass oShuffle 0 processed else processed

/-! ## Countdown and timeout submission (TakeQuiz.tsx lines 62-70 and 138-198)

The timer effect reruns on every change of `timeLeft`: while it is
positive it schedules a one-second timeout that decrements it; when it
reaches zero with an attempt present it calls `handleSubmit(true)`,
which stamps `submitted_at` on the attempt. One `tick` is one firing of
the scheduled timeout followed by the effect rerun on the new value;
the persistence writes of the submission are assumed to succeed. -/

/-- Client-side engine state for one attempt: remaining seconds, the
attempt id (absent until the attempt row is created), the attempt's
`submitted_at` column, and how many times a submission was triggered. -/
structure EngineState where
  timeLeft : Nat
  attemptId : Option String
  submittedAt : Option Nat
  submitCount : Nat
deriving Repr, DecidableEq

/-- One timer tick (`now` is the wall-clock stamp written at
submission): if no timeout is scheduled (`timeLeft = 0`) nothing
happens; otherwise `timeLeft` decrements and the effect reruns, and at
zero with an attempt present `handleSubmit(true)` runs, setting
`submitted_at` (TakeQuiz.tsx lines 62-70, 176-184). -/
def tick (now : Nat) (s : EngineState) : EngineState :=
  if s.timeLeft > 0 then
    let t := s.timeLeft - 1
    if t = 0 ∧ s.attemptId.isSome then
      { s with timeLeft := 0, submittedAt := some now, submitCount := s.submitCount + 1 }
    else { s with timeLeft := t }
  else s

/-- Engine state right after a successful load: `timeLeft` is
`duration_minutes * 60` (TakeQuiz.tsx line 115) and the attempt row has
been created with a null `submitted_at` (lines 117-128). -/
def initialEngine (durationMinutes : Nat) (aid : String) : EngineState :=
  { timeLeft := durationMinutes * 60
    attemptId := some aid
    submittedAt := none
    submitCount := 0 }

/-! ## Quiz authoring (`handleAddQuestion`, CreateQuiz.tsx lines 47-79) -/

/-- The `currentQuestion` form draft in `CreateQuiz.tsx` (a
`Partial<Question>` whose fields are always populated by the form's
initial state). -/
structure DraftQuestion where
  question_text : String
  question_type : String
  options : List String
  correct_answer : String
  points : Nat
deriving Repr, DecidableEq

/-- The accepted question built from a draft (CreateQuiz.tsx lines
59-68): a fresh id, the fixed `['True', 'False']` option pair for
true/false drafts, and `points || 1` (a zero — falsy — point value is
replaced by 1). -/
def acceptedQuestion (cur : DraftQuestion) (newId : String) : Question :=
  { id := newId
    question_text := cur.question_text
    question_type := cur.question_type
    options := if cur.question_type == "true_false" then ["True", "False"] else cur.options
    correct_answer := cur.correct_answer
    points := if cur.points = 0 then 1 else cur.points }

/-- `handleAddQuestion` (CreateQuiz.tsx lines 47-79): reject the draft
(returning the accumulated list unchanged) when the question text or
the correct answer is empty (falsy), or when the draft is
multiple-choice and some option is blank (`!o.trim()`); otherwise
append the accepted question. -/
def handleAddQuestion (questions : List Question) (cur : DraftQuestion)
    (newId : String) : List Question :=
  if cur.question_text = "" ∨ cur.correct_answer = "" then questions
  else if cur.question_type == "mcq" ∧ cur.options.any (fun o => jsTrim o = "") then questions
  else questions ++ [acceptedQuestion cur newId]

/-! ## Publishing (`handleSubmit`, CreateQuiz.tsx lines 85-136) -/

/-- A question row inserted by the publish batch, tagged with the new
quiz id (CreateQuiz.tsx lines 113-120). -/
structure TaggedQuestionRow where
  quiz_id : String
  question_text : String
  question_type : String
  options : List String
  correct_answer : String
  points : Nat
deriving Repr, DecidableEq

/-- `questions.map(q => ({quiz_id: quiz.id, ...}))` (CreateQuiz.tsx
lines 113-120). -/
def tagQuestion (quizId : String) (q : Question) : TaggedQuestionRow :=
  { quiz_id := quizId
    question_text := q.question_text
    question_type := q.question_type
    options := q.options
    correct_answer := q.correct_answer
    points := q.points }

/-- A successful write performed against the persistence service during
publishing; an insert that errors persists nothing. -/
inductive DbWrite where
  | quizInsert (quizId : String) (title : String)
  | questionsBatchInsert (rows : List TaggedQuestionRow)
deriving Repr, DecidableEq

/-- The publish flow (CreateQuiz.tsx lines 85-136) as the sequence of
successful writes it leaves behind, plus an overall success flag. The
outcomes of the two inserts are injected as `quizInsertOk` and
`questionsInsertOk`; a thrown error is caught (lines 130-133) with no
compensating write, so a question-batch failure leaves the already
inserted quiz row in place. -/
def publishQuiz (title : String) (questions : List Question)
    (newQuizId : String) (quizInsertOk questionsInsertOk : Bool) :
    List DbWrite × Bool :=
  if title = "" ∨ questions.length = 0 then ([], false)
  else if quizInsertOk = false then ([], false)
  else
    let trace := [DbWrite.quizInsert newQuizId title]
    let rows := questions.map (tagQuestion newQuizId)
    if questionsInsertOk then (trace ++ [DbWrite.questionsBatchInsert rows], true)
    else (trace, false)

/-! ## Dashboard statistics (`fetchQuizStats`, AdminDashboard.tsx lines 71-95) -/

/-- A `quiz_attempts` row as selected by `fetchQuizStats` (`score` and
`total_points` columns plus the `submitted_at` filter column). -/
structure AttemptRow where
  score : ℚ
  total_points : ℚ
  submitted_at : Option Nat
deriving DecidableEq

/-- The per-quiz statistics record (interface `QuizStats`). -/
structure QuizStats where
  attempts : Nat
  avg_score : ℚ
  highest_score : ℚ
deriving DecidableEq

/-- `fetchQuizStats` (AdminDashboard.tsx lines 71-95) applied to the
quiz's attempt rows: the query keeps only rows with a non-null
`submitted_at`; each kept row contributes the percentage
`(score / total_points) * 100`; the average is `sum / length` when the
list is non-empty and 0 otherwise; the highest is `Math.max` over the
list when non-empty and 0 otherwise. -/
def fetchQuizStats (rows : List AttemptRow) : QuizStats :=
  let data := rows.filter (fun a => a.submitted_at.isSome)
  let scores := data.map (fun a => a.score / a.total_points * 100)
  { attempts := data.length
    avg_score := if scores.length > 0 then scores.sum / scores.length else 0
    highest_score :=
      match scores with
      | [] => 0
      | s :: rest => rest.foldl max s }

/-! ## Results view (Results.tsx lines 182-186) -/

/-- The per-question points line of the results view:
`{answer.points_earned} / {answer.points_earned + (answer.is_correct ? 0 : 1)}`
(Results.tsx line 184), as the displayed (numerator, denominator) pair. -/
def displayedPoints (a : AnswerRow) : Nat × Nat :=
  (a.points_earned, a.points_earned + (if a.is_correct then 0 else 1))

/-! ## Supporting lemmas -/

/-- Characterization of the scoring fold with an arbitrary accumulator. -/
lemma handleSubmitCore_foldl (aid : String) (answers : List (String × String)) :
    ∀ (qs : List Question) (acc : Nat × Nat × List AnswerRow),
      qs.foldl (submitStep aid answers) acc =
        (acc.1 + ((qs.map (mkAnswerRow aid answers)).map (fun a => a.points_earned)).sum,
         acc.2.1 + (qs.map (fun q => q.points)).sum,
         acc.2.2 ++ qs.map (mkAnswerRow aid answers)) := by
  intro qs
  induction qs with
  | nil => intro acc; simp
  | cons q rest ih =>
      intro acc
      simp only [List.foldl_cons, ih, submitStep, List.map_cons, List.sum_cons]
      refine Prod.ext ?_ (Prod.ext ?_ ?_) <;> simp [Nat.add_assoc]

/-! ## C1 -/

/-- C1. For every question, the grading of a submitted answer string
(the one recorded for the question's id) against the stored
correct-answer string marks the answer correct exactly when the two
strings agree after trimming and lowercasing both, and awards the full
point value when correct and zero points otherwise. -/
theorem grading_trim_case_insensitive (aid : String)
    (answers : List (String × String)) (q : Question) :
    ((mkAnswerRow aid answers q).is_correct = true ↔
      jsToLowerCase (jsTrim (lookupAnswer answers q.id)) =
        jsToLowerCase (jsTrim q.correct_answer)) ∧
    (mkAnswerRow aid answers q).points_earned =
      (if (mkAnswerRow aid answers q).is_correct then q.points else 0) := by
  constructor
  · simp [mkAnswerRow, gradeIsCorrect]
  · by_cases h : gradeIsCorrect (lookupAnswer answers q.id) q.correct_answer <;>
      simp [mkAnswerRow, h]

/-! ## C2 -/

/-- A reachable question whose stored correct answer is the blank
string `" "` (accepted by the authoring validation, which only rejects
a falsy — empty — correct answer). -/
def blankKeyQuestion : Question :=
  { id := "q1"
    question_text := "Transcribe the silence"
    question_type := "short_answer"
    options := []
    correct_answer := " "
    points := 1 }

/-- C2 counterexample: for a question whose stored correct answer trims
to the empty string, an unanswered question is recorded with the empty
string but is marked CORRECT and earns its full point value, refuting
the claim's "regardless of the question's stored correct-answer
string". -/
theorem unanswered_blank_key_marked_correct :
    (mkAnswerRow "a1" [] blankKeyQuestion).student_answer = "" ∧
    (mkAnswerRow "a1" [] blankKeyQuestion).is_correct = true ∧
    (mkAnswerRow "a1" [] blankKeyQuestion).points_earned = 1 := by
  refine ⟨rfl, ?_, rfl⟩; rfl

/-- C2 (amended). For every question the student never answered whose
stored correct answer does not trim-and-lowercase to the empty string,
the recorded answer is the empty string, the question is marked
incorrect, and its points earned are zero. -/
theorem unanswered_recorded_empty_incorrect (aid : String)
    (answers : List (String × String)) (q : Question)
    (hna : answers.find? (fun p => p.1 == q.id) = none)
    (hc : jsToLowerCase (jsTrim q.correct_answer) ≠ "") :
    (mkAnswerRow aid answers q).student_answer = "" ∧
    (mkAnswerRow aid answers q).is_correct = false ∧
    (mkAnswerRow aid answers q).points_earned = 0 := by
  have hlook : lookupAnswer answers q.id = "" := by
    simp [lookupAnswer, hna]
  have hgrade : gradeIsCorrect "" q.correct_answer = false := by
    simp only [gradeIsCorrect]
    have : jsToLowerCase (jsTrim "") = "" := rfl
    rw [this]
    exact beq_eq_false_iff_ne.mpr (fun h => hc h.symm)
  refine ⟨?_, ?_, ?_⟩ <;> simp [mkAnswerRow, hlook, hgrade]

/-- A concrete short-answer question with a non-blank correct answer. -/
def parisQuestion : Question :=
  { id := "q2"
    question_text := "Capital of France?"
    question_type := "short_answer"
    options := []
    correct_answer := "Paris"
    points := 3 }

/-- Closed witness for the amended C2 at a concrete unanswered
question. -/
theorem unanswered_recorded_empty_incorrect_witness :
    (mkAnswerRow "a1" [] parisQuestion).student_answer = "" ∧
    (mkAnswerRow "a1" [] parisQuestion).is_correct = false ∧
    (mkAnswerRow "a1" [] parisQuestion).points_earned = 0 :=
  unanswered_recorded_empty_incorrect "a1" [] parisQuestion rfl (by decide)

/-! ## C3 -/

/-- C3. After a submission built by the scoring loop, the attempt's
score is the sum of `points_earned` over the persisted answer rows, the
attempt's `total_points` is the sum of the served questions' point
values, and one answer row is persisted per served question. -/
theorem submit_score_invariants (aid : String) (qs : List Question)
    (answers : List (String × String)) :
    (handleSubmitCore aid qs answers).1 =
      (((handleSubmitCore aid qs answers).2.2).map (fun a => a.points_earned)).sum ∧
    (handleSubmitCore aid qs answers).2.1 = (qs.map (fun q => q.points)).sum ∧
    ((handleSubmitCore aid qs answers).2.2).length = qs.length := by
  simp [handleSubmitCore, handleSubmitCore_foldl aid answers qs (0, 0, [])]

/-! ## C4 -/

/-- Counting down: while more than one second remains, a tick only
decrements the clock. -/
lemma tick_countdown (now : Nat) (aid : String) (c : Nat) :
    ∀ (m n : Nat),
      (tick now)^[m]
          { timeLeft := m + (n + 1), attemptId := some aid,
            submittedAt := none, submitCount := c } =
        { timeLeft := n + 1, attemptId := some aid,
          submittedAt := none, submitCount := c } := by
  intro m
  induction m with
  | zero => intro n; simp
  | succ k ih =>
      intro n
      rw [Function.iterate_succ_apply]
      have hstep : tick now
          { timeLeft := k + 1 + (n + 1), attemptId := some aid,
            submittedAt := none, submitCount := c } =
          { timeLeft := k + (n + 1), attemptId := some aid,
            submittedAt := none, submitCount := c } := by
        simp [tick]
        omega
      rw [hstep, ih n]

/-- The tick that reaches zero performs the automatic submission. -/
lemma tick_final (now : Nat) (aid : String) (c : Nat) :
    tick now
        { timeLeft := 1, attemptId := some aid,
          submittedAt := none, submitCount := c } =
      { timeLeft := 0, attemptId := some aid,
        submittedAt := some now, submitCount := c + 1 } := by
  simp [tick]

/-- With no time left, no timeout is scheduled and a tick changes
nothing. -/
lemma tick_fixed (now : Nat) (s : EngineState) (h : s.timeLeft = 0) :
    tick now s = s := by
  simp [tick, h]

/-- C4. For a quiz of duration 1 minute whose attempt has been created,
with no manual submission: across the whole run, no submission has been
triggered strictly before the 60th tick and exactly one from the 60th
tick on (never zero, never twice), and after the 60th tick the
attempt's submit time is non-null. -/
theorem timeout_submits_exactly_once (aid : String) (now : Nat) :
    (∀ m : Nat, ((tick now)^[m] (initialEngine 1 aid)).submitCount =
      if m < 60 then 0 else 1) ∧
    ((tick now)^[60] (initialEngine 1 aid)).submittedAt = some now := by
  have hinit : initialEngine 1 aid =
      { timeLeft := 60, attemptId := some aid,
        submittedAt := none, submitCount := 0 } := rfl
  have h59 : (tick now)^[59] (initialEngine 1 aid) =
      { timeLeft := 1, attemptId := some aid,
        submittedAt := none, submitCount := 0 } := by
    rw [hinit]
    have := tick_countdown now aid 0 59 0
    simpa using this
  have h60 : (tick now)^[60] (initialEngine 1 aid) =
      { timeLeft := 0, attemptId := some aid,
        submittedAt := some now, submitCount := 1 } := by
    have : (60 : Nat) = 1 + 59 := by omega
    rw [this, Function.iterate_add_apply, h59, Function.iterate_one,
      tick_final]
  constructor
  · intro m
    rcases Nat.lt_or_ge m 60 with hm | hm
    · rw [if_pos hm]
      rcases Nat.exists_eq_add_of_lt hm with ⟨k, hk⟩
      have hsplit : initialEngine 1 aid =
          { timeLeft := m + (k + 1), attemptId := some aid,
            submittedAt := none, submitCount := 0 } := by
        rw [hinit, show m + (k + 1) = 60 from by omega]
      rw [hsplit, tick_countdown now aid 0 m k]
    · rw [if_neg (by omega)]
      rcases Nat.exists_eq_add_of_le hm with ⟨k, hk⟩
      subst hk
      rw [Nat.add_comm, Function.iterate_add_apply, h60,
        Function.iterate_fixed (tick_fixed now _ rfl)]
  · rw [h60]

/-! ## C5 -/

/-- Normalizing a stored question row keeps its id. -/
lemma normalizeStored_id (q : StoredQuestion) : (normalizeStored q).id = q.id := rfl

/-- The option-randomization pass keeps every question's id in place. -/
lemma randomizeOptionsPass_map_id
    (oShuffle : Nat → List String → List String) :
    ∀ (i : Nat) (qs : List Question),
      (randomizeOptionsPass oShuffle i qs).map (fun q => q.id) =
        qs.map (fun q => q.id) := by
  intro i qs
  induction qs generalizing i with
  | nil => simp [randomizeOptionsPass]
  | cons q rest ih =>
      simp only [randomizeOptionsPass, List.map_cons, ih]
      split <;> simp

/-- C5. With the randomize-questions flag false, the served question
sequence has exactly the ids of the stored sequence in the stored
order, and this order does not depend on any of the randomness sources,
so repeated loads of the same stored rows serve the identical question
order. -/
theorem no_shuffle_preserves_order (ro : Bool)
    (qShuffle qShuffle2 : List Question → List Question)
    (oShuffle oShuffle2 : Nat → List String → List String)
    (stored : List StoredQuestion) :
    (processQuestions false ro qShuffle oShuffle stored).map (fun q => q.id) =
      stored.map (fun q => q.id) ∧
    (processQuestions false ro qShuffle oShuffle stored).map (fun q => q.id) =
      (processQuestions false ro qShuffle2 oShuffle2 stored).map (fun q => q.id) := by
  have hbase : (stored.map normalizeStored).map (fun q => q.id) =
      stored.map (fun q => q.id) := by
    rw [List.map_map]; rfl
  have key : ∀ (qS : List Question → List Question)
      (oS : Nat → List String → List String),
      (processQuestions false ro qS oS stored).map (fun q => q.id) =
        stored.map (fun q => q.id) := by
    intro qS oS
    cases ro with
    | false =>
        have hproc : processQuestions false false qS oS stored =
            stored.map normalizeStored := by
          simp [processQuestions]
        rw [hproc, hbase]
    | true =>
        have hproc : processQuestions false true qS oS stored =
            randomizeOptionsPass oS 0 (stored.map normalizeStored) := by
          simp [processQuestions]
        rw [hproc, randomizeOptionsPass_map_id oS 0 (stored.map normalizeStored),
          hbase]
  exact ⟨key qShuffle oShuffle,
    (key qShuffle oShuffle).trans (key qShuffle2 oShuffle2).symm⟩

/-! ## C6 -/

/-- Pointwise characterization of the option-randomization pass: the
question at position `j` of the output is the question at position `j`
of the input, with its option list reordered by its own draw when it is
multiple-choice and untouched otherwise. -/
lemma randomizeOptionsPass_getElem
    (oShuffle : Nat → List String → List String) :
    ∀ (qs : List Question) (i j : Nat),
      (randomizeOptionsPass oShuffle i qs)[j]? =
        (qs[j]?).map (fun q =>
          if q.question_type == "mcq" then
            { q with options := oShuffle (i + j) q.options }
          else q) := by
  intro qs
  induction qs with
  | nil => intro i j; simp [randomizeOptionsPass]
  | cons q rest ih =>
      intro i j
      cases j with
      | zero => simp [randomizeOptionsPass]
      | succ k =>
          simp only [randomizeOptionsPass, List.getElem?_cons_succ, ih (i + 1) k]
          have : i + (k + 1) = i + 1 + k := by omega
          rw [this]

/-- C6. With the randomize-options flag set, the served sequence is the
(possibly question-shuffled) base sequence in which exactly the
multiple-choice questions have their option list reordered, each by its
own positional draw; every true/false and short-answer question record
is unchanged, and the served sequence has the same length as the base
sequence. -/
theorem randomize_options_frame (rq : Bool)
    (qShuffle : List Question → List Question)
    (oShuffle : Nat → List String → List String)
    (stored : List StoredQuestion) (j : Nat) :
    (processQuestions rq true qShuffle oShuffle stored)[j]? =
      ((if rq then qShuffle (stored.map normalizeStored)
        else stored.map normalizeStored)[j]?).map (fun q =>
          if q.question_type == "mcq" then
            { q with options := oShuffle j q.options }
          else q) ∧
    (processQuestions rq true qShuffle oShuffle stored).length =
      (if rq then qShuffle (stored.map normalizeStored)
        else stored.map normalizeStored).length := by
  have hlen : ∀ (i : Nat) (qs : List Question),
      (randomizeOptionsPass oShuffle i qs).length = qs.length := by
    intro i qs
    induction qs generalizing i with
    | nil => rfl
    | cons q rest ih => simp [randomizeOptionsPass, ih]
  have hproc : processQuestions rq true qShuffle oShuffle stored =
      randomizeOptionsPass oShuffle 0
        (if rq then qShuffle (stored.map normalizeStored)
          else stored.map normalizeStored) := by
    simp [processQuestions]
  constructor
  · rw [hproc, randomizeOptionsPass_getElem oShuffle _ 0 j]
    simp
  · rw [hproc, hlen]

/-! ## C7 -/

/-- A multiple-choice draft whose every field is non-empty but whose
first option is the blank string `" "`. -/
def blankOptionDraft : DraftQuestion :=
  { question_text := "Pick the second letter"
    question_type := "mcq"
    options := [" ", "b", "c", "d"]
    correct_answer := "b"
    points := 1 }

/-- C7 counterexample: this draft has non-empty question text, a
non-empty correct answer, and four non-empty option slots, so the claim
says it is accepted; `handleAddQuestion` nevertheless rejects it (its
first option is whitespace-only, and the code trims option slots before
testing them), leaving the accumulated list unchanged. -/
theorem blank_option_draft_rejected :
    blankOptionDraft.question_text ≠ "" ∧
    blankOptionDraft.correct_answer ≠ "" ∧
    (∀ o ∈ blankOptionDraft.options, o ≠ "") ∧
    handleAddQuestion [] blankOptionDraft "n1" = [] := by
  refine ⟨by decide, by decide, by decide, ?_⟩
  rfl

/-- Acceptance condition of the amended C7, following its words: the
question text and correct answer are non-empty and, for a
multiple-choice draft, every option slot is non-blank (non-empty after
trimming whitespace). -/
def acceptsDraft (cur : DraftQuestion) : Bool :=
  !(cur.question_text == "") && !(cur.correct_answer == "") &&
    (!(cur.question_type == "mcq") || cur.options.all (fun o => !(jsTrim o == "")))

/-- C7 (amended). A draft question is appended to the accumulated list
exactly when its text and correct-answer fields are non-empty and, for
multiple-choice drafts, every option slot is non-empty after trimming
whitespace; a rejected draft leaves the list unchanged, and an accepted
true/false draft receives exactly the option list `["True", "False"]`. -/
theorem add_question_accepts_iff (questions : List Question)
    (cur : DraftQuestion) (newId : String) :
    handleAddQuestion questions cur newId =
      (if acceptsDraft cur then questions ++ [acceptedQuestion cur newId]
        else questions) ∧
    (acceptedQuestion cur newId).options =
      (if cur.question_type == "true_false" then ["True", "False"]
        else cur.options) := by
  refine ⟨?_, rfl⟩
  simp only [handleAddQuestion, acceptsDraft]
  by_cases h1 : cur.question_text = ""
  · simp [h1]
  · by_cases h2 : cur.correct_answer = ""
    · simp [h1, h2]
    · by_cases h3 : cur.question_type = "mcq"
      · by_cases h4 : ∃ o ∈ cur.options, jsTrim o = ""
        · have hany : cur.options.any (fun o => jsTrim o = "") = true := by
            rcases h4 with ⟨o, ho, htrim⟩
            exact List.any_eq_true.mpr ⟨o, ho, by simp [htrim]⟩
          have hall : cur.options.all (fun o => !(jsTrim o == "")) = false := by
            rcases h4 with ⟨o, ho, htrim⟩
            rw [Bool.eq_false_iff]
            intro hAll
            have := List.all_eq_true.mp hAll o ho
            simp [htrim] at this
          simp [h1, h2, h3, hany, hall]
        · have hany : cur.options.any (fun o => jsTrim o = "") = false := by
            rw [Bool.eq_false_iff]
            intro hcontra
            rcases List.any_eq_true.mp hcontra with ⟨o, ho, hdec⟩
            exact h4 ⟨o, ho, of_decide_eq_true hdec⟩
          have hall : cur.options.all (fun o => !(jsTrim o == "")) = true := by
            rw [List.all_eq_true]
            intro o ho
            rw [Bool.not_eq_true']
            exact beq_eq_false_iff_ne.mpr (fun htrim => h4 ⟨o, ho, htrim⟩)
          simp [h1, h2, h3, hany, hall]
      · simp [h1, h2, h3]

/-! ## C8 -/

/-- C8. With non-empty title and a non-empty question list, a publish
run whose quiz insert succeeds leaves a write trace that starts with
the quiz-row insert, followed — exactly when the question batch
succeeds — by the single batch insert of all accumulated question rows
tagged with the new quiz id; when the quiz insert fails nothing is
written; and a question-batch failure after the quiz insert leaves an
overall failed run whose only persisted write is the quiz row (an
orphaned quiz, with no compensating write in the trace). -/
theorem publish_write_order_and_orphan (title : String)
    (qs : List Question) (newId : String)
    (hT : title ≠ "") (hQ : qs ≠ []) :
    (publishQuiz title qs newId true true).1 =
      [DbWrite.quizInsert newId title,
        DbWrite.questionsBatchInsert (qs.map (tagQuestion newId))] ∧
    (publishQuiz title qs newId true false).1 =
      [DbWrite.quizInsert newId title] ∧
    (publishQuiz title qs newId false true).1 = [] ∧
    (publishQuiz title qs newId false false).1 = [] ∧
    (publishQuiz title qs newId true true).2 = true ∧
    (publishQuiz title qs newId true false).2 = false := by
  have hlen : ¬ qs.length = 0 := by
    simpa [List.length_eq_zero] using hQ
  refine ⟨?_, ?_, ?_, ?_, ?_, ?_⟩ <;> simp [publishQuiz, hT, hlen]

/-- Closed witness for C8 at a concrete quiz with one question. -/
theorem publish_write_order_and_orphan_witness :
    ("Algebra" ≠ "") ∧ ([parisQuestion] ≠ ([] : List Question)) ∧
    ((publishQuiz "Algebra" [parisQuestion] "z1" true true).1 =
      [DbWrite.quizInsert "z1" "Algebra",
        DbWrite.questionsBatchInsert ([parisQuestion].map (tagQuestion "z1"))] ∧
    (publishQuiz "Algebra" [parisQuestion] "z1" true false).1 =
      [DbWrite.quizInsert "z1" "Algebra"] ∧
    (publishQuiz "Algebra" [parisQuestion] "z1" false true).1 = [] ∧
    (publishQuiz "Algebra" [parisQuestion] "z1" false false).1 = [] ∧
    (publishQuiz "Algebra" [parisQuestion] "z1" true true).2 = true ∧
    (publishQuiz "Algebra" [parisQuestion] "z1" true false).2 = false) :=
  ⟨by decide, by simp,
    publish_write_order_and_orphan "Algebra" [parisQuestion] "z1"
      (by decide) (by simp)⟩

/-! ## C9 -/

/-- The left fold of binary `max` over a non-empty list (the meaning of
`Math.max(...scores)`) yields an element of the list. -/
lemma foldl_max_mem (rest : List ℚ) : ∀ s : ℚ, rest.foldl max s ∈ s :: rest := by
  induction rest with
  | nil => intro s; simp
  | cons r t ih =>
      intro s
      rw [List.foldl_cons]
      rcases List.mem_cons.mp (ih (max s r)) with hh | hh
      · rcases max_choice s r with hc | hc
        · rw [hc] at hh ⊢
          exact List.mem_cons.mpr (Or.inl hh)
        · rw [hc] at hh ⊢
          exact List.mem_cons.mpr (Or.inr (List.mem_cons.mpr (Or.inl hh)))
      · exact List.mem_cons.mpr (Or.inr (List.mem_cons.mpr (Or.inr hh)))

/-- The left fold of binary `max` bounds the seed and every element of
the list from above. -/
lemma le_foldl_max (rest : List ℚ) :
    ∀ s : ℚ, ∀ x ∈ s :: rest, x ≤ rest.foldl max s := by
  induction rest with
  | nil => intro s x hx; simp at hx; simp [hx]
  | cons r t ih =>
      intro s x hx
      simp only [List.foldl_cons]
      rcases List.mem_cons.mp hx with hh | hh
      · subst hh
        exact le_trans (le_max_left x r) (ih (max x r) _ (List.mem_cons_self _ _))
      · rcases List.mem_cons.mp hh with hh2 | hh2
        · subst hh2
          exact le_trans (le_max_right s x) (ih (max s x) _ (List.mem_cons_self _ _))
        · exact ih (max s r) x (List.mem_cons.mpr (Or.inr hh2))

/-- C9. The dashboard statistics for a quiz are computed over exactly
the attempts with a non-null submit time: the attempt count is the
number of such rows; the average is the arithmetic mean of the
percentages `100 * score / total_points` of those rows (0 when there
are none); and the highest is a maximum of those percentages — 0 when
there are none, otherwise one of them and an upper bound of all of
them. -/
theorem quiz_stats_correct (rows : List AttemptRow) :
    (fetchQuizStats rows).attempts =
      (rows.filter (fun a => a.submitted_at.isSome)).length ∧
    (fetchQuizStats rows).avg_score =
      (if ((rows.filter (fun a => a.submitted_at.isSome)).map
            (fun a => 100 * a.score / a.total_points)).length = 0 then 0
        else ((rows.filter (fun a => a.submitted_at.isSome)).map
            (fun a => 100 * a.score / a.total_points)).sum /
          (((rows.filter (fun a => a.submitted_at.isSome)).map
            (fun a => 100 * a.score / a.total_points)).length : ℚ)) ∧
    (((rows.filter (fun a => a.submitted_at.isSome)).map
        (fun a => 100 * a.score / a.total_points)) = [] ∧
      (fetchQuizStats rows).highest_score = 0 ∨
      (fetchQuizStats rows).highest_score ∈
        ((rows.filter (fun a => a.submitted_at.isSome)).map
          (fun a => 100 * a.score / a.total_points)) ∧
      ((rows.filter (fun a => a.submitted_at.isSome)).map
          (fun a => 100 * a.score / a.total_points)).all
        (fun x => x ≤ (fetchQuizStats rows).highest_score) = true) := by
  have hfun : (fun a : AttemptRow => a.score / a.total_points * 100) =
      (fun a : AttemptRow => 100 * a.score / a.total_points) := by
    funext a
    rw [div_mul_eq_mul_div, mul_comm]
  refine ⟨rfl, ?_, ?_⟩
  · simp only [fetchQuizStats, hfun]
    rcases Nat.eq_zero_or_pos ((rows.filter (fun a => a.submitted_at.isSome)).map
        (fun a => 100 * a.score / a.total_points)).length with h | h
    · rw [if_neg (by omega), if_pos h]
    · rw [if_pos h, if_neg (by omega)]
  · simp only [fetchQuizStats, hfun]
    cases hcase : (rows.filter (fun a => a.submitted_at.isSome)).map
        (fun a => 100 * a.score / a.total_points) with
    | nil => exact Or.inl ⟨rfl, rfl⟩
    | cons s rest =>
        refine Or.inr ⟨?_, ?_⟩
        · exact foldl_max_mem rest s
        · rw [List.all_eq_true]
          intro x hx
          exact decide_eq_true (le_foldl_max rest s x hx)

/-! ## C10 -/

/-- C10. In the results view, the denominator displayed next to the
earned points is `points_earned` plus 0 for a correct answer and 1 for
an incorrect one; consequently, on any row produced by the grading
loop, an incorrect answer is displayed as `0 / 1` whatever the
question's stored point value, and a correct answer displays the
earned points as both numerator and denominator. -/
theorem results_points_display (aid : String)
    (answers : List (String × String)) (q : Question) :
    (displayedPoints (mkAnswerRow aid answers q)).2 =
      (mkAnswerRow aid answers q).points_earned +
        (if (mkAnswerRow aid answers q).is_correct then 0 else 1) ∧
    displayedPoints (mkAnswerRow aid answers q) =
      (if (mkAnswerRow aid answers q).is_correct then
        ((mkAnswerRow aid answers q).points_earned,
          (mkAnswerRow aid answers q).points_earned)
        else (0, 1)) := by
  refine ⟨rfl, ?_⟩
  by_cases h : gradeIsCorrect (lookupAnswer answers q.id) q.correct_answer <;>
    simp [displayedPoints, mkAnswerRow, h]

end SmartQuizHub
